import Mathlib

/-
  Verification of the lerna configuration-composition engine against its
  specification.  Definitions are shallow embeddings of the Python sources
  under `lerna/`; parts of the system that live in the Rust extension
  (`lerna.lerna`) are modelled from the specification and marked as such in
  their doc comments.
-/

namespace Lerna

/-! ## Path normalization (`_normalize_path` of `lerna/core/default_element.py`)

The function itself lives in `default_element.py`, which is not part of the
Python sources here (only its tests are); it is modelled from the spec. -/

/-- Segments of a path, split on the `/` character (Python `str.split("/")`):
splitting the empty string yields one empty segment. -/
def splitSlash : List Char → List (List Char)
  | [] => [[]]
  | c :: cs =>
    if c = '/' then [] :: splitSlash cs
    else
      match splitSlash cs with
      | [] => [[c]]
      | s :: rest => (c :: s) :: rest

/-- Join segments back with `/` (Python `"/".join(...)`). -/
def joinSegs : List (List Char) → List Char
  | [] => []
  | [s] => s
  | s :: rest => s ++ '/' :: joinSegs rest

/-- Stack-based resolution of path segments: empty segments and `.` are
dropped, `..` pops the last kept segment (and is dropped at the root). -/
def normSegsAux (stack : List (List Char)) : List (List Char) → List (List Char)
  | [] => stack.reverse
  | s :: rest =>
    if s = [] ∨ s = ['.'] then normSegsAux stack rest
    else if s = ['.', '.'] then normSegsAux (stack.drop 1) rest
    else normSegsAux (s :: stack) rest

def normSegs (segs : List (List Char)) : List (List Char) :=
  normSegsAux [] segs

/-- Modelled from the spec: `_normalize_path` (in `lerna/core/default_element.py`,
not under the Python sources here) normalizes a `/`-separated path: it joins on
`/`, resolves `.` and `..`, collapses double slashes, and clamps `..` so it
cannot rise above the root. -/
def _normalize_path (p : String) : String :=
  ⟨joinSegs (normSegs (splitSlash p.data))⟩

/-- A clean segment: nonempty, not `.`, not `..`, and slash-free. -/
def cleanSeg (s : List Char) : Prop :=
  s ≠ [] ∧ s ≠ ['.'] ∧ s ≠ ['.', '.'] ∧ '/' ∉ s

theorem splitSlash_no_slash (l : List Char) : ∀ s ∈ splitSlash l, '/' ∉ s := by
  induction l with
  | nil => intro s hs; simp [splitSlash] at hs; simp [hs]
  | cons c cs ih =>
    intro s hs
    by_cases hc : c = '/'
    · rw [splitSlash, if_pos hc] at hs
      rcases List.mem_cons.1 hs with h | h
      · simp [h]
      · exact ih s h
    · rw [splitSlash, if_neg hc] at hs
      rcases hsplit : splitSlash cs with _ | ⟨t, rest⟩ <;> rw [hsplit] at hs
      · simp at hs
        rw [hs]
        simp
        exact fun h => hc h.symm
      · rcases List.mem_cons.1 hs with h | h
        · rw [h]
          intro hmem
          rcases List.mem_cons.1 hmem with h' | h'
          · exact hc h'.symm
          · exact ih t (by rw [hsplit]; simp) h'
        · exact ih s (by rw [hsplit]; simp [h])

theorem normSegsAux_clean (segs : List (List Char)) :
    ∀ stack : List (List Char), (∀ s ∈ stack, cleanSeg s) →
    (∀ s ∈ segs, '/' ∉ s) →
    ∀ s ∈ normSegsAux stack segs, cleanSeg s := by
  induction segs with
  | nil =>
    intro stack hstack _ s hs
    simp [normSegsAux] at hs
    exact hstack s hs
  | cons t rest ih =>
    intro stack hstack hns s hs
    have hrest : ∀ s ∈ rest, '/' ∉ s := fun s h => hns s (by simp [h])
    by_cases h1 : t = [] ∨ t = ['.']
    · rw [normSegsAux, if_pos h1] at hs
      exact ih stack hstack hrest s hs
    · by_cases h2 : t = ['.', '.']
      · rw [normSegsAux, if_neg h1, if_pos h2] at hs
        exact ih (stack.drop 1) (fun u hu => hstack u (List.mem_of_mem_drop hu)) hrest s hs
      · rw [normSegsAux, if_neg h1, if_neg h2] at hs
        refine ih (t :: stack) ?_ hrest s hs
        intro u hu
        rcases List.mem_cons.1 hu with h | h
        · rw [h]
          push_neg at h1
          exact ⟨h1.1, h1.2, h2, hns t (by simp)⟩
        · exact hstack u h

theorem normSegs_clean (segs : List (List Char)) (h : ∀ s ∈ segs, '/' ∉ s) :
    ∀ s ∈ normSegs segs, cleanSeg s :=
  normSegsAux_clean segs [] (by simp) h

theorem splitSlash_of_no_slash (s : List Char) (h : '/' ∉ s) :
    splitSlash s = [s] := by
  induction s with
  | nil => rfl
  | cons c cs ih =>
    have hc : ¬(c = '/') := fun hc => h (by simp [hc])
    have hcs : '/' ∉ cs := fun hm => h (by simp [hm])
    rw [splitSlash, if_neg hc, ih hcs]

theorem splitSlash_append_slash (s t : List Char) (h : '/' ∉ s) :
    splitSlash (s ++ '/' :: t) = s :: splitSlash t := by
  induction s with
  | nil => simp [splitSlash]
  | cons c cs ih =>
    have hc : ¬(c = '/') := fun hc => h (by simp [hc])
    have hcs : '/' ∉ cs := fun hm => h (by simp [hm])
    have := ih hcs
    rw [List.cons_append, splitSlash, if_neg hc, this]

theorem splitSlash_joinSegs (segs : List (List Char)) (hne : segs ≠ [])
    (h : ∀ s ∈ segs, '/' ∉ s) : splitSlash (joinSegs segs) = segs := by
  induction segs with
  | nil => exact absurd rfl hne
  | cons s rest ih =>
    cases rest with
    | nil => simpa [joinSegs] using splitSlash_of_no_slash s (h s (by simp))
    | cons t rest' =>
      show splitSlash (s ++ '/' :: joinSegs (t :: rest')) = _
      rw [splitSlash_append_slash s _ (h s (by simp))]
      rw [ih (List.cons_ne_nil t rest') (fun u hu => h u (by simp [hu]))]

theorem normSegsAux_of_clean (segs : List (List Char))
    (h : ∀ s ∈ segs, cleanSeg s) :
    ∀ stack : List (List Char), normSegsAux stack segs = stack.reverse ++ segs := by
  induction segs with
  | nil => intro stack; simp [normSegsAux]
  | cons t rest ih =>
    intro stack
    obtain ⟨h1, h2, h3, _⟩ := h t (by simp)
    rw [normSegsAux, if_neg (by simp [h1, h2]), if_neg h3]
    rw [ih (fun u hu => h u (by simp [hu])) (t :: stack)]
    simp

theorem normSegs_of_clean (segs : List (List Char))
    (h : ∀ s ∈ segs, cleanSeg s) : normSegs segs = segs := by
  rw [normSegs, normSegsAux_of_clean segs h []]
  simp

theorem normalize_path_idem (p : String) :
    _normalize_path (_normalize_path p) = _normalize_path p := by
  unfold _normalize_path
  have hclean := normSegs_clean (splitSlash p.data) (splitSlash_no_slash p.data)
  rcases hout : normSegs (splitSlash p.data) with _ | ⟨s, rest⟩
  · rfl
  · rw [hout] at hclean
    have hsplit : splitSlash (joinSegs (s :: rest)) = s :: rest :=
      splitSlash_joinSegs _ (by simp) (fun u hu => (hclean u hu).2.2.2)
    show String.mk (joinSegs (normSegs (splitSlash (joinSegs (s :: rest))))) = _
    rw [hsplit, normSegs_of_clean _ hclean]

theorem normalize_path_dotdot_head (p : String) :
    _normalize_path ("../" ++ p) = _normalize_path p := by
  unfold _normalize_path
  have hdata : ("../" ++ p).data = '.' :: '.' :: '/' :: p.data := by
    simp [String.data_append]
  rw [hdata]
  have hsplit : splitSlash ('.' :: '.' :: '/' :: p.data) =
      ['.', '.'] :: splitSlash p.data := by
    simp [splitSlash]
  rw [hsplit]
  rfl

theorem normalize_path_no_dotdot (p : String) :
    ∀ s ∈ splitSlash (_normalize_path p).data, s ≠ ['.', '.'] := by
  intro s hs
  have hclean := normSegs_clean (splitSlash p.data) (splitSlash_no_slash p.data)
  rcases hout : normSegs (splitSlash p.data) with _ | ⟨t, rest⟩
  · unfold _normalize_path at hs
    rw [hout] at hs
    simp [joinSegs, splitSlash] at hs
    simp [hs]
  · rw [hout] at hclean
    unfold _normalize_path at hs
    rw [hout] at hs
    rw [splitSlash_joinSegs _ (by simp) (fun u hu => (hclean u hu).2.2.2)] at hs
    exact (hclean s hs).2.2.1

/-! ## Defaults entries and base-dir resolution (`lerna/core/default_element.py`) -/

/-- Python `path.startswith("/")`, decided on the underlying character list. -/
def startsWithSlash (p : String) : Bool :=
  match p.data with
  | '/' :: _ => true
  | _ => false

/-- Modelled from the spec: resolution of a defaults path against the parent
document's base dir (`default_element.py` is not under the Python sources
here): paths beginning with `/` are absolute from the root; otherwise the path
is joined to the base dir on `/` and normalized. -/
def resolve_path (base p : String) : String :=
  if startsWithSlash p then _normalize_path p
  else _normalize_path (base ++ "/" ++ p)

theorem resolve_path_no_dotdot (base p : String) :
    ∀ s ∈ splitSlash (resolve_path base p).data, s ≠ ['.', '.'] := by
  unfold resolve_path
  by_cases h : startsWithSlash p
  · rw [if_pos h]; exact normalize_path_no_dotdot p
  · rw [if_neg h]; exact normalize_path_no_dotdot (base ++ "/" ++ p)

theorem resolve_path_empty_base (q : String) :
    resolve_path "" q = _normalize_path q := by
  unfold resolve_path
  by_cases h : startsWithSlash q
  · rw [if_pos h]
  · rw [if_neg h]
    unfold _normalize_path
    have hdata : (("" : String) ++ "/" ++ q).data = '/' :: q.data := by
      simp [String.data_append]
    rw [hdata]
    have hsplit : splitSlash ('/' :: q.data) = [] :: splitSlash q.data := by
      simp [splitSlash]
    rw [hsplit]
    rfl

/-- Modelled from the spec: a group default `- <group>: <value>` of a defaults
list (`GroupDefault` in `default_element.py`, not under the Python sources
here).  The `ext_append` field is `external_append` in the source: it marks an
entry appended externally from the CLI via `+group=value`. -/
structure GroupDefault where
  group : String
  value : String
  ext_append : Bool := false
  parent_base_dir : String := ""
  parent_package : String := ""

def GroupDefault.update_parent (gd : GroupDefault)
    (parent_base_dir parent_package : String) : GroupDefault :=
  { gd with parent_base_dir := parent_base_dir, parent_package := parent_package }

def GroupDefault.get_group_path (gd : GroupDefault) : String :=
  resolve_path gd.parent_base_dir gd.group

def GroupDefault.get_config_path (gd : GroupDefault) : String :=
  resolve_path gd.parent_base_dir (gd.group ++ "/" ++ gd.value)

/-- Modelled from the spec: a config default `- <path>` of a defaults list
(`ConfigDefault` in `default_element.py`, not under the Python sources here). -/
structure ConfigDefault where
  path : String
  parent_base_dir : String := ""
  parent_package : String := ""

def ConfigDefault.update_parent (cd : ConfigDefault)
    (parent_base_dir parent_package : String) : ConfigDefault :=
  { cd with parent_base_dir := parent_base_dir, parent_package := parent_package }

def ConfigDefault.get_config_path (cd : ConfigDefault) : String :=
  resolve_path cd.parent_base_dir cd.path

/-- Modelled from the spec: the defaults-list resolver (`defaults_list.py`,
not under the Python sources here) updates the parent of each entry with the
enclosing document's base dir — except that an entry appended externally from
the CLI (`+group=value`) gets an empty base dir, making its path absolute from
the search-path root. -/
def resolver_update_parent (primary_base_dir : String) (gd : GroupDefault) :
    GroupDefault :=
  gd.update_parent (if gd.ext_append then "" else primary_base_dir) ""

/-- C1: a group default appended externally from the CLI (`+group=value`) is
resolved with an empty base dir, so its config path is absolute from the root
of the search path and independent of the primary document's base dir. -/
theorem C1_external_append_resolves_from_root (b : String) (gd : GroupDefault)
    (h : gd.ext_append = true) :
    (resolver_update_parent b gd).get_config_path =
      _normalize_path (gd.group ++ "/" ++ gd.value) ∧
    (resolver_update_parent b gd).get_config_path =
      (resolver_update_parent "" gd).get_config_path := by
  unfold resolver_update_parent GroupDefault.update_parent GroupDefault.get_config_path
  rw [h]
  simp [resolve_path_empty_base]

/-- C1 witness: composing the primary `server/alpha` (base dir `server`) with
the override `+db@db_2=postgresql` resolves `db/postgresql` at the root, not
`server/db/postgresql`. -/
theorem C1_external_append_resolves_from_root_witness :
    (resolver_update_parent "server"
        ⟨"db", "postgresql", true, "", ""⟩).get_config_path = "db/postgresql" ∧
    (resolver_update_parent "server"
        ⟨"db", "postgresql", false, "", ""⟩).get_config_path =
      "server/db/postgresql" := by
  constructor
  · have h := (C1_external_append_resolves_from_root "server"
      ⟨"db", "postgresql", true, "", ""⟩ rfl).1
    rw [h]
    decide
  · decide

/-- C3: the defaults-path normalization function is idempotent; leading `..`
segments are dropped (they cannot escape above the root); and the result of
normalization — also against any parent base dir — contains no `..` segment,
so it stays at or below the root. -/
theorem C3_normalize_path_idempotent_rooted (p : String) :
    _normalize_path (_normalize_path p) = _normalize_path p ∧
    _normalize_path ("../" ++ p) = _normalize_path p ∧
    ((splitSlash (_normalize_path p).data).all (fun s => s != ['.', '.']) = true) ∧
    (∀ base : String,
      (splitSlash (resolve_path base p).data).all (fun s => s != ['.', '.']) = true) := by
  refine ⟨normalize_path_idem p, normalize_path_dotdot_head p, ?_, ?_⟩
  · rw [List.all_eq_true]
    intro s hs
    simpa using normalize_path_no_dotdot p s hs
  · intro base
    rw [List.all_eq_true]
    intro s hs
    simpa using resolve_path_no_dotdot base p s hs

/-! ## Override value model (`lerna/core/override_parser/overrides_parser.py`) -/

inductive Quote where
  | single
  | double
deriving DecidableEq

structure QuotedString where
  text : String
  quote : Quote
deriving DecidableEq

/-- Scalar values of the override grammar; Python floats are represented as
rationals. -/
inductive Prim where
  | pnull
  | pbool (b : Bool)
  | pint (i : Int)
  | pfloat (q : ℚ)
  | pstr (s : String)
deriving DecidableEq

/-- Output values of the Rust parser (`lerna.lerna.OverrideParser.parse_to_dict`)
as consumed by `_rust_dict_to_override`.  The sweep dictionaries (`{"type":
"choice_sweep", ...}` and the like) are represented as dedicated constructors;
`inc` / `exc` stand for the source's `include` / `exclude` pattern lists. -/
inductive RustValue where
  | prim (v : Prim)
  | quoted (text : String) (quote : Quote)
  | rlist (xs : List RustValue)
  | rdict (entries : List (String × RustValue))
  | choice_sweep (tags : List String) (xs : List RustValue)
      (simple_form shuffle : Bool)
  | range_sweep (tags : List String) (start stop step : Option Prim)
      (is_int shuffle : Bool)
  | interval_sweep (tags : List String) (start stop : Option Prim) (is_int : Bool)
  | glob_sweep (inc exc : List String)
  | list_extension (operation : String) (index : Option Int)
      (values : List RustValue)

/-- Python-side values after `_convert_rust_value`: Rust quoted strings became
`QuotedString`, dict keys were converted by `_convert_dict_key`. -/
inductive PyValue where
  | prim (v : Prim)
  | quoted (q : QuotedString)
  | plist (xs : List PyValue)
  | pdict (entries : List (Prim × PyValue))
  | choice_sweep (tags : List String) (xs : List PyValue)
      (simple_form shuffle : Bool)
  | range_sweep (tags : List String) (start stop step : Option Prim)
      (is_int shuffle : Bool)
  | interval_sweep (tags : List String) (start stop : Option Prim) (is_int : Bool)
  | glob_sweep (inc exc : List String)
  | list_extension (operation : String) (index : Option Int)
      (values : List PyValue)

def digitsVal (l : List Char) : Nat :=
  l.foldl (fun n c => n * 10 + (c.toNat - '0'.toNat)) 0

/-- Python `int(key)` on a string, for decimal literals (the broader Python
numeric literal forms — underscores, surrounding whitespace — are not
modelled). -/
def parseDecInt : List Char → Option Int
  | [] => none
  | '-' :: ds =>
    if ds ≠ [] ∧ ds.all Char.isDigit then some (-(digitsVal ds : Int)) else none
  | '+' :: ds =>
    if ds ≠ [] ∧ ds.all Char.isDigit then some (digitsVal ds) else none
  | ds => if ds.all Char.isDigit then some (digitsVal ds) else none

/-- Python `float(key)` on a string, for plain decimal-point literals
(exponent and special forms are not modelled). -/
def parseDecFloat (l : List Char) : Option ℚ :=
  match l.splitOn '.' with
  | [ip, fp] =>
    let (sgn, ipd) : ℚ × List Char :=
      match ip with
      | '-' :: r => (-1, r)
      | '+' :: r => (1, r)
      | r => (1, r)
    if (ipd ++ fp) ≠ [] ∧ (ipd ++ fp).all Char.isDigit then
      some (sgn * ((digitsVal ipd : ℚ) + (digitsVal fp : ℚ) / ((10 : ℚ) ^ fp.length)))
    else none
  | _ => none

/-- `_convert_dict_key`: dict-literal key strings are parsed as
null/bool/int/float when possible, else kept as strings. -/
def _convert_dict_key (key : String) : Prim :=
  let kl := key.toLower
  if kl = "null" then .pnull
  else if kl = "true" then .pbool true
  else if kl = "false" then .pbool false
  else
    match parseDecInt key.data with
    | some i => .pint i
    | none =>
      match parseDecFloat key.data with
      | some q => .pfloat q
      | none => .pstr key

mutual

/-- `_convert_rust_value`: convert Rust types to Python types recursively
(Rust quoted strings to `QuotedString`, lists and dict values elementwise,
dict keys through `_convert_dict_key`). -/
def _convert_rust_value : RustValue → PyValue
  | .prim v => .prim v
  | .quoted t q => .quoted ⟨t, q⟩
  | .rlist xs => .plist (convertRustList xs)
  | .rdict es => .pdict (convertRustEntries es)
  | .choice_sweep tags xs s sh => .choice_sweep tags (convertRustList xs) s sh
  | .range_sweep tags a b c i sh => .range_sweep tags a b c i sh
  | .interval_sweep tags a b i => .interval_sweep tags a b i
  | .glob_sweep inc exc => .glob_sweep inc exc
  | .list_extension op idx vs => .list_extension op idx (convertRustList vs)

def convertRustList : List RustValue → List PyValue
  | [] => []
  | x :: xs => _convert_rust_value x :: convertRustList xs

def convertRustEntries : List (String × RustValue) → List (Prim × PyValue)
  | [] => []
  | (k, v) :: es =>
    (_convert_dict_key k, _convert_rust_value v) :: convertRustEntries es

end

/-- Top-level `QuotedString`s are converted to plain strings (in the
`choice_sweep` and `list_extension` branches of `_rust_dict_to_override`). -/
def unquote_top : PyValue → PyValue
  | .quoted q => .prim (.pstr q.text)
  | v => v

inductive OverrideType where
  | change
  | add
  | force_add
  | del
  | ext_list
deriving DecidableEq

inductive ValueType where
  | element
  | choice_sweep
  | simple_choice_sweep
  | glob_choice_sweep
  | range_sweep
  | interval_sweep
deriving DecidableEq

inductive ListOperationType where
  | append
  | prepend
  | insert
  | remove_at
  | remove_value
  | clear
deriving DecidableEq

def override_type_map : List (String × OverrideType) :=
  [("CHANGE", .change), ("ADD", .add), ("FORCE_ADD", .force_add),
   ("DEL", .del), ("EXTEND_LIST", .ext_list)]

def value_type_map : List (String × ValueType) :=
  [("ELEMENT", .element), ("CHOICE_SWEEP", .choice_sweep),
   ("SIMPLE_CHOICE_SWEEP", .simple_choice_sweep),
   ("GLOB_CHOICE_SWEEP", .glob_choice_sweep), ("RANGE_SWEEP", .range_sweep),
   ("INTERVAL_SWEEP", .interval_sweep)]

def list_operation_map : List (String × ListOperationType) :=
  [("APPEND", .append), ("PREPEND", .prepend), ("INSERT", .insert),
   ("REMOVE_AT", .remove_at), ("REMOVE_VALUE", .remove_value),
   ("CLEAR", .clear)]

/-- `_parse_list_operation`: convert the operation string from Rust to the
enum, defaulting to `APPEND`. -/
def _parse_list_operation (operation_str : String) : ListOperationType :=
  (list_operation_map.lookup operation_str).getD .append

/-- The value slot of an `Override` (`_value` in the source). -/
inductive OverrideValue where
  | none_v
  | py (v : PyValue)
  | choice (tags : List String) (xs : List PyValue) (simple_form shuffle : Bool)
  | range (tags : List String) (start stop : Option Prim) (step : Prim)
      (shuffle : Bool)
  | interval (tags : List String) (start stop : Option Prim)
  | glob (inc exc : List String)
  | ext_values (xs : List PyValue)

/-- The `Override` record (`lerna/core/override_parser/types.py`; the
`config_loader` field is not modelled). -/
structure Override where
  type : OverrideType
  key_or_group : String
  value_type : Option ValueType
  value : OverrideValue
  package : Option String := none
  input_line : Option String := none
  list_operation : Option ListOperationType := none
  list_index : Option Int := none
  searchpath : Option (List String) := none

/-- Truncation toward zero (Python `int()` on a float). -/
def ratTruncInt (q : ℚ) : Int :=
  if 0 ≤ q then q.floor else q.ceil

/-- Python `int(x)` as applied under the `is_int` flags (the Rust parser only
emits numbers in those positions). -/
def prim_to_int : Prim → Prim
  | .pfloat q => .pint (ratTruncInt q)
  | v => v

structure OverrideParseExceptionData where
  override : String
  message : String
deriving DecidableEq

/-- Errors raised by `_rust_dict_to_override`: `type_map[data["type"]]` raises
`KeyError` for an unknown type string; the list-extension check raises
`OverrideParseException`. -/
inductive RustConvertError where
  | key_error (key : String)
  | override_parse (e : OverrideParseExceptionData)
deriving DecidableEq

/-- The dict produced by the Rust parser for one override string. -/
structure RustParseData where
  type : String
  key_or_group : String
  package : Option String := none
  value_type : Option String := none
  value : Option RustValue := none
  input_line : Option String := none

/-- `_rust_dict_to_override`: convert the Rust parser output dict to an
`Override`.  `Override.validate()` (defined in `types.py`, which is not under
the Python sources here) is not modelled; the sweep items of a choice were
already converted, so the source's second `_convert_rust_value` pass over them
is the identity and only the top-level unquoting remains. -/
def _rust_dict_to_override (data : RustParseData)
    (searchpath : Option (List String) := none) : Except RustConvertError Override :=
  match override_type_map.lookup data.type with
  | none => .error (.key_error data.type)
  | some override_type =>
    let value_type0 : Option ValueType :=
      match data.value with
      | none => none
      | some _ => data.value_type.bind (fun s => value_type_map.lookup s)
    match data.value.map _convert_rust_value with
    | none =>
      .ok { type := override_type, key_or_group := data.key_or_group,
            value_type := value_type0, value := .none_v,
            package := data.package, input_line := data.input_line,
            searchpath := searchpath }
    | some pv =>
      match pv with
      | .choice_sweep tags xs simple_form shuffle =>
        .ok { type := override_type, key_or_group := data.key_or_group,
              value_type := value_type0,
              value := .choice tags (xs.map unquote_top) simple_form shuffle,
              package := data.package, input_line := data.input_line,
              searchpath := searchpath }
      | .range_sweep tags start stop step is_int shuffle =>
        let step1 := step.getD (Prim.pint 1)
        let start1 := if is_int then start.map prim_to_int else start
        let stop1 := if is_int then stop.map prim_to_int else stop
        let step2 := if is_int then prim_to_int step1 else step1
        .ok { type := override_type, key_or_group := data.key_or_group,
              value_type := value_type0,
              value := .range tags start1 stop1 step2 shuffle,
              package := data.package, input_line := data.input_line,
              searchpath := searchpath }
      | .interval_sweep tags start stop is_int =>
        let start1 := if is_int then start.map prim_to_int else start
        let stop1 := if is_int then stop.map prim_to_int else stop
        .ok { type := override_type, key_or_group := data.key_or_group,
              value_type := value_type0,
              value := .interval tags start1 stop1,
              package := data.package, input_line := data.input_line,
              searchpath := searchpath }
      | .glob_sweep inc exc =>
        .ok { type := override_type, key_or_group := data.key_or_group,
              value_type := some .glob_choice_sweep,
              value := .glob inc exc,
              package := data.package, input_line := data.input_line,
              searchpath := searchpath }
      | .list_extension op idx vals =>
        if override_type = .add ∨ override_type = .force_add then
          .error (.override_parse ⟨data.input_line.getD "",
            "Trying to use override symbols when extending a list"⟩)
        else
          .ok { type := .ext_list, key_or_group := data.key_or_group,
                value_type := some .element,
                value := .ext_values (vals.map unquote_top),
                package := data.package, input_line := data.input_line,
                list_operation := some (_parse_list_operation op),
                list_index := idx, searchpath := searchpath }
      | other =>
        .ok { type := override_type, key_or_group := data.key_or_group,
              value_type := value_type0, value := .py other,
              package := data.package, input_line := data.input_line,
              searchpath := searchpath }

/-- C4: an `ExtendList` value may only occur with override type `Change`: a
parsed override whose value is a list-extension function call (`append`,
`prepend`, `insert`, `remove_at`, `remove_value`, `list_clear`, `extend_list`)
and whose key carries the `+` (`ADD`) or `++` (`FORCE_ADD`) marker is rejected
by `_rust_dict_to_override` with an `OverrideParseException`, not converted to
an `Override` record. -/
theorem C4_extend_list_requires_change (data : RustParseData)
    (op : String) (idx : Option Int) (vals : List RustValue)
    (sp : Option (List String))
    (htype : data.type = "ADD" ∨ data.type = "FORCE_ADD")
    (hval : data.value = some (.list_extension op idx vals)) :
    _rust_dict_to_override data sp =
      .error (.override_parse ⟨data.input_line.getD "",
        "Trying to use override symbols when extending a list"⟩) := by
  obtain ⟨ty, key, pkg, vt, val, il⟩ := data
  simp only at htype hval
  subst hval
  rcases htype with h | h <;> subst h <;> rfl

/-- C4 witness: `+key=append(1)` (type `ADD`, list-extension value) fails to
parse with the override-symbols error. -/
theorem C4_extend_list_requires_change_witness :
    _rust_dict_to_override
        { type := "ADD", key_or_group := "key",
          value := some (.list_extension "APPEND" none [.prim (.pint 1)]),
          input_line := some "+key=append(1)" } none =
      .error (.override_parse ⟨"+key=append(1)",
        "Trying to use override symbols when extending a list"⟩) :=
  C4_extend_list_requires_change _ "APPEND" none [.prim (.pint 1)] none
    (Or.inl rfl) rfl

/-! ## `OverridesParser.parse_overrides` -/

/-- Python `f"{overrides}"` on a list of strings, as interpolated into the
error message (repr quoting simplified to the plain single-quote form). -/
def py_str_list_repr (xs : List String) : String :=
  "[" ++ String.intercalate ", " (xs.map (fun s => "'" ++ s ++ "'")) ++ "]"

/-- The message of the `OverrideParseException` raised by `parse_overrides`
for the failing element at enumeration index `idx`: the f-strings interpolate
the index, the failing string, the whole argument list, the wrapped error
text, and the documentation pointer. -/
def parse_overrides_message (idx : Nat) (o : String) (all : List String)
    (e : String) : String :=
  "Error when parsing index: " ++ toString idx ++ ", string: " ++ o ++
    " out of " ++ py_str_list_repr all ++ "." ++ "\n" ++
    "Error parsing override '" ++ o ++ "'" ++ "\n" ++ e ++
    "\nSee https://hydra.cc/docs/1.2/advanced/override_grammar/basic for details"

/-- The `enumerate` loop of `OverridesParser.parse_overrides`; `parse` stands
for `parse_rule(override, "override")` (the Rust parser, whose failures
surface as `HydraException` text).  Setting `parsed.config_loader` on the
result is not modelled. -/
def parse_overrides_from (parse : String → Except String Override)
    (all : List String) (idx : Nat) :
    List String → Except OverrideParseExceptionData (List Override)
  | [] => .ok []
  | o :: rest =>
    match parse o with
    | .error e => .error ⟨o, parse_overrides_message idx o all e⟩
    | .ok ov =>
      match parse_overrides_from parse all (idx + 1) rest with
      | .error d => .error d
      | .ok ovs => .ok (ov :: ovs)

def parse_overrides (parse : String → Except String Override)
    (overrides : List String) :
    Except OverrideParseExceptionData (List Override) :=
  parse_overrides_from parse overrides 0 overrides

theorem parse_overrides_from_first_error
    (parse : String → Except String Override) (all : List String)
    (bad : String) (e : String) (post : List String)
    (hbad : parse bad = .error e) :
    ∀ (pre : List String) (idx : Nat), (∀ o ∈ pre, ∃ r, parse o = .ok r) →
    parse_overrides_from parse all idx (pre ++ bad :: post) =
      .error ⟨bad, parse_overrides_message (idx + pre.length) bad all e⟩ := by
  intro pre
  induction pre with
  | nil =>
    intro idx _
    simp [parse_overrides_from, hbad]
  | cons o rest ih =>
    intro idx hpre
    obtain ⟨r, hr⟩ := hpre o (by simp)
    have hrec := ih (idx + 1) (fun u hu => hpre u (by simp [hu]))
    have harith : idx + 1 + rest.length = idx + (rest.length + 1) := by omega
    rw [harith] at hrec
    simp only [List.cons_append, parse_overrides_from, hr, List.append_eq,
      List.length_cons, hrec]

/-- C8 (amended): when the element at 0-based position `i` of the CLI argument
list is the first to fail to parse, `parse_overrides` raises an
`OverrideParseException` whose `override` field is the failing input line and
whose message interpolates the 0-based enumeration index `i` (the source uses
`enumerate(overrides)`, which counts from 0). -/
theorem C8_parse_error_reports_line_and_index
    (parse : String → Except String Override)
    (pre post : List String) (bad : String) (e : String)
    (hpre : ∀ o ∈ pre, ∃ r, parse o = .ok r)
    (hbad : parse bad = .error e) :
    parse_overrides parse (pre ++ bad :: post) =
      .error ⟨bad,
        parse_overrides_message pre.length bad (pre ++ bad :: post) e⟩ := by
  have := parse_overrides_from_first_error parse (pre ++ bad :: post) bad e post
    hbad pre 0 hpre
  simpa using this

/-- A concrete parsed override, used by the C8 witness. -/
def sampleOverride : Override :=
  { type := .change, key_or_group := "ok", value_type := some .element,
    value := .py (.prim (.pint 1)) }

/-- A concrete single-override parse function, used by the C8 witness. -/
def sampleParse : String → Except String Override :=
  fun s => if s = "ok=1" then .ok sampleOverride else .error "boom"

/-- C8 witness: with the second argument the first failing one, the exception
names that line and interpolates index 1 (0-based) in its message. -/
theorem C8_parse_error_reports_line_and_index_witness :
    parse_overrides sampleParse ["ok=1", "bad("] =
      .error ⟨"bad(",
        parse_overrides_message 1 "bad(" ["ok=1", "bad("] "boom"⟩ := by
  have h := C8_parse_error_reports_line_and_index sampleParse
    ["ok=1"] [] "bad(" "boom"
    (by
      intro o ho
      refine ⟨sampleOverride, ?_⟩
      simp at ho
      simp [ho, sampleParse])
    (by simp [sampleParse])
  simpa using h

set_option maxRecDepth 40000 in
/-- C8 counterexample: for a single-element argument list whose element fails,
the message reports `index: 0`, not the 1-based `index: 1` — the index carried
by the exception is 0-based. -/
theorem C8_counterexample_index_is_zero_based :
    parse_overrides (fun _ => .error "err") ["bad"] =
      .error ⟨"bad", parse_overrides_message 0 "bad" ["bad"] "err"⟩ ∧
    ¬ List.IsInfix ("index: 1").data
        (parse_overrides_message 0 "bad" ["bad"] "err").data ∧
    List.IsInfix ("index: 0").data
        (parse_overrides_message 0 "bad" ["bad"] "err").data := by
  refine ⟨rfl, by decide, by decide⟩

/-! ## The grammar function registry (`lerna/_internal/grammar/functions.py`) -/

/-- A grammar function value: positional and keyword arguments to a result.
The `inspect` signature binding and the `is_type_matching` checks (from
`_internal/grammar/utils.py`, not under the Python sources here) are carried
out by the function value itself. -/
def GFun : Type := List PyValue → List (String × PyValue) → Except String PyValue

/-- `RUST_NATIVE_FUNCTIONS`: names the Rust parser handles natively. -/
def RUST_NATIVE_FUNCTIONS : List String :=
  ["choice", "range", "interval", "shuffle", "sort", "tag", "glob",
   "int", "float", "str", "bool", "json_str", "extend_list"]

structure FunctionCallData where
  name : String
  args : List PyValue
  kwargs : List (String × PyValue)

/-- The `Functions` registry: registered names (`definitions`; the
`inspect.Signature` payloads are not modelled), the functions themselves, and
the Rust-native names overridden by user registrations. -/
structure Functions where
  definitions : List String
  funcs : List (String × GFun)
  user_overrides : List String

/-- The default-constructed registry `Functions()`. -/
def Functions.init : Functions :=
  { definitions := [], funcs := [], user_overrides := [] }

/-- `Functions.register`: an already-registered name is refused; a non-builtin
registration of a Rust-native name is recorded in `user_overrides`. -/
def Functions.register (fs : Functions) (name : String) (func : GFun)
    (builtin : Bool := false) : Except String Functions :=
  if name ∈ fs.definitions then
    .error ("Function named '" ++ name ++ "' is already registered")
  else
    .ok { definitions := name :: fs.definitions,
          funcs := (name, func) :: fs.funcs,
          user_overrides :=
            if ¬builtin ∧ name ∈ RUST_NATIVE_FUNCTIONS then
              name :: fs.user_overrides
            else fs.user_overrides }

def insertSorted (x : String) : List String → List String
  | [] => [x]
  | y :: ys => if x ≤ y then x :: y :: ys else y :: insertSorted x ys

/-- Python `sorted(...)` on strings (insertion sort). -/
def sortStrings (l : List String) : List String :=
  l.foldr insertSorted []

/-- `Functions.eval`: unknown names are refused with the sorted list of
available names; quoted strings in args and kwarg values are unquoted; then
the registered function is applied. -/
def Functions.eval (fs : Functions) (call : FunctionCallData) :
    Except String PyValue :=
  if call.name ∈ fs.definitions then
    match fs.funcs.lookup call.name with
    | some f =>
      f (call.args.map unquote_top)
        (call.kwargs.map (fun kv => (kv.1, unquote_top kv.2)))
    | none => .error "registry out of sync"
  else
    .error ("Unknown function '" ++ call.name ++ "'\nAvailable: " ++
      String.intercalate "," (sortStrings fs.definitions) ++ "\n")

/-- C7: on the override-grammar function registry (the fresh `Functions()`
state — the built-ins live in the Rust parser and are not pre-registered
there), registering a user-defined function under a built-in name succeeds,
records the name in `user_overrides` (which replaces the Rust-native
built-in), and subsequent evaluation of that name dispatches to the user's
function. -/
theorem C7_user_function_replaces_builtin (name : String) (f : GFun)
    (h : name ∈ RUST_NATIVE_FUNCTIONS) :
    Functions.init.register name f =
      .ok { definitions := [name], funcs := [(name, f)],
            user_overrides := [name] } ∧
    name ∈ (Functions.mk [name] [(name, f)] [name]).user_overrides ∧
    ∀ args kwargs,
      (Functions.mk [name] [(name, f)] [name]).eval ⟨name, args, kwargs⟩ =
        f (args.map unquote_top)
          (kwargs.map (fun kv => (kv.1, unquote_top kv.2))) := by
  refine ⟨?_, by simp, ?_⟩
  · unfold Functions.register Functions.init
    simp [h]
  · intro args kwargs
    unfold Functions.eval
    simp [List.lookup]

/-- C7 witness: registering `choice` on a fresh registry succeeds, marks it as
a user override, and evaluation uses the user's function. -/
theorem C7_user_function_replaces_builtin_witness :
    Functions.init.register "choice" (fun args _ => .ok (.plist args)) =
      .ok { definitions := ["choice"],
            funcs := [("choice", fun args _ => .ok (.plist args))],
            user_overrides := ["choice"] } ∧
    (Functions.mk ["choice"]
        [("choice", fun args _ => .ok (.plist args))] ["choice"]).eval
      ⟨"choice", [PyValue.prim (.pint 1)], []⟩ =
        .ok (.plist [PyValue.prim (.pint 1)]) := by
  obtain ⟨h1, _, h3⟩ := C7_user_function_replaces_builtin "choice"
    (fun args _ => .ok (.plist args)) (by simp [RUST_NATIVE_FUNCTIONS])
  exact ⟨h1, (h3 [PyValue.prim (.pint 1)] []).trans rfl⟩

/-! ## Sweep expansion (the basic sweeper) -/

/-- Modelled from the spec: an entry of the override list as seen by the sweep
expander (the basic sweeper lives in the Rust extension `lerna.lerna`, not
under the Python sources here): a discrete sweep over `key` with its
materialized choice strings, or a non-sweep override kept verbatim. -/
inductive SweepEntry where
  | sweep (key : String) (choices : List String)
  | fixed (override : String)
deriving DecidableEq

/-- The number of concrete values an entry contributes. -/
def SweepEntry.size : SweepEntry → Nat
  | .sweep _ cs => cs.length
  | .fixed _ => 1

/-- Modelled from the spec: Cartesian expansion of the override list into
concrete override lists — each discrete sweep contributes one `key=item`
string per item, and non-sweep overrides appear in every job. -/
def expand_sweeps : List SweepEntry → List (List String)
  | [] => [[]]
  | .fixed o :: rest => (expand_sweeps rest).map (o :: ·)
  | .sweep k cs :: rest =>
    (cs.map fun c => (expand_sweeps rest).map ((k ++ "=" ++ c) :: ·)).flatten

theorem expand_sweeps_length (l : List SweepEntry) :
    (expand_sweeps l).length = (l.map SweepEntry.size).prod := by
  induction l with
  | nil => simp [expand_sweeps]
  | cons e rest ih =>
    cases e with
    | fixed o => simp [expand_sweeps, ih, SweepEntry.size]
    | sweep k cs =>
      show ((cs.map fun c =>
        (expand_sweeps rest).map ((k ++ "=" ++ c) :: ·)).flatten).length = _
      rw [List.length_flatten, List.map_map]
      have hconst : (List.length ∘ fun c =>
          (expand_sweeps rest).map ((k ++ "=" ++ c) :: ·)) =
          fun _ : String => (expand_sweeps rest).length := by
        funext c
        simp
      rw [hconst, ih]
      simp [List.map_const, SweepEntry.size, Nat.mul_comm]

theorem string_append_left_cancel {a b c : String} (h : a ++ b = a ++ c) :
    b = c := by
  have hd := congrArg String.data h
  rw [String.data_append, String.data_append] at hd
  have htail := List.append_cancel_left hd
  cases b
  cases c
  exact congrArg String.mk htail

theorem expand_sweeps_nodup (l : List SweepEntry)
    (h : ∀ k cs, SweepEntry.sweep k cs ∈ l → cs.Nodup) :
    (expand_sweeps l).Nodup := by
  induction l with
  | nil => simp [expand_sweeps]
  | cons e rest ih =>
    have hrest := ih (fun k cs hm => h k cs (List.mem_cons_of_mem _ hm))
    cases e with
    | fixed o =>
      exact hrest.map (fun x y hxy => by simpa using hxy)
    | sweep k cs =>
      have hcs : cs.Nodup := h k cs (List.mem_cons_self _ _)
      show ((cs.map fun c =>
        (expand_sweeps rest).map ((k ++ "=" ++ c) :: ·)).flatten).Nodup
      rw [List.nodup_flatten]
      constructor
      · intro li hli
        rw [List.mem_map] at hli
        obtain ⟨c, _, rfl⟩ := hli
        exact hrest.map (fun x y hxy => by simpa using hxy)
      · rw [List.pairwise_map]
        refine hcs.imp ?_
        intro a b hab x hxa hxb
        rw [List.mem_map] at hxa hxb
        obtain ⟨ta, _, rfl⟩ := hxa
        obtain ⟨tb, _, htb⟩ := hxb
        have hhead : k ++ "=" ++ b = k ++ "=" ++ a := (List.cons_eq_cons.1 htb).1
        exact hab (string_append_left_cancel hhead).symm

theorem sweep_size_prod_one (l : List SweepEntry)
    (hns : ∀ k cs, SweepEntry.sweep k cs ∉ l) :
    (l.map SweepEntry.size).prod = 1 := by
  induction l with
  | nil => simp
  | cons e rest ih =>
    have hr := ih (fun k cs hm => hns k cs (List.mem_cons_of_mem _ hm))
    cases e with
    | fixed o => simp [SweepEntry.size, hr]
    | sweep k cs => exact absurd (List.mem_cons_self _ _) (hns k cs)

/-- C2 (amended): the Cartesian expansion of an override list with discrete
sweeps of sizes s₁ … s_N (plus any non-sweep overrides) produces exactly
s₁ * … * s_N concrete override lists; the lists are pairwise distinct provided
each sweep's item list has no duplicates; and a list with no sweeps yields
exactly one job. -/
theorem C2_cartesian_expansion (l : List SweepEntry) :
    (expand_sweeps l).length = (l.map SweepEntry.size).prod ∧
    ((∀ k cs, SweepEntry.sweep k cs ∈ l → cs.Nodup) →
      (expand_sweeps l).Nodup) ∧
    ((∀ k cs, SweepEntry.sweep k cs ∉ l) → (expand_sweeps l).length = 1) := by
  refine ⟨expand_sweeps_length l, expand_sweeps_nodup l, ?_⟩
  intro hns
  rw [expand_sweeps_length l, sweep_size_prod_one l hns]

/-- C2 counterexample: a discrete sweep with a repeated item (`k=choice(a,a)`)
has size 2 and expands to two identical override lists, so the expanded lists
are not pairwise distinct as the claim states. -/
theorem C2_counterexample_duplicate_choice :
    (expand_sweeps [SweepEntry.sweep "k" ["a", "a"]]).length = 2 ∧
    expand_sweeps [SweepEntry.sweep "k" ["a", "a"]] = [["k=a"], ["k=a"]] ∧
    ¬ (expand_sweeps [SweepEntry.sweep "k" ["a", "a"]]).Nodup := by
  refine ⟨by decide, by decide, by decide⟩

/-- C2 witness: two discrete sweeps of sizes 2 and 2 plus a non-sweep override
expand to exactly 4 pairwise-distinct override lists. -/
theorem C2_cartesian_expansion_witness :
    (expand_sweeps [SweepEntry.sweep "db" ["mysql", "postgres"],
        SweepEntry.sweep "port" ["3306", "5432"],
        SweepEntry.fixed "v=1"]).length = 4 ∧
    (expand_sweeps [SweepEntry.sweep "db" ["mysql", "postgres"],
        SweepEntry.sweep "port" ["3306", "5432"],
        SweepEntry.fixed "v=1"]).Nodup := by
  obtain ⟨h1, h2, _⟩ := C2_cartesian_expansion
    [SweepEntry.sweep "db" ["mysql", "postgres"],
     SweepEntry.sweep "port" ["3306", "5432"], SweepEntry.fixed "v=1"]
  refine ⟨by rw [h1]; decide, h2 ?_⟩
  intro k cs hm
  simp at hm
  rcases hm with ⟨-, rfl⟩ | ⟨-, rfl⟩ <;> decide

/-! ## Config loading (`file_config_source.py`, `pkg_helper.py`) -/

/-- YAML document values as produced by `yaml.safe_load` / `_rs.parse_yaml`;
Python `None` (the YAML null document) is represented by `Option.none` at the
call sites. -/
inductive YamlValue where
  | prim (v : Prim)
  | ymap (entries : List (String × YamlValue))
  | ylist (xs : List YamlValue)

/-- Python `s.endswith(suf)`, decided on the underlying character lists. -/
def strEndsWith (s suf : String) : Bool :=
  suf.data.isSuffixOf s.data

/-- Modelled from the spec: `ConfigSource._normalize_file_name` (the base
class `lerna/plugins/config_source.py` is not under the Python sources here):
a config name on disk carries a `.yaml` extension, appended when missing. -/
def file_normalize_name (filename : String) : String :=
  if strEndsWith filename ".yaml" then filename else filename ++ ".yaml"

/-- The result record of `ConfigSource.load_config`. -/
structure ConfigResult where
  config : YamlValue
  path : String
  provider : String
  header : List (String × String)

/-- A `FileConfigSource`: provider name and root directory (the `file://`
scheme handling of `__init__` and the base class is not modelled beyond
storing the root). -/
structure FileConfigSource where
  provider : String
  path : String

/-- `FileConfigSource.load_config`: `fs` models the filesystem (full path ↦
file text, `none` when `os.path.exists` fails; `os.path.realpath` is not
modelled), `extract_header` models `_rs.extract_header_dict`, `rust_parse`
models `_rs.parse_yaml`, and `py_parse` the `yaml.safe_load` fallback used
when the Rust parse raises.  In both parsers `Option.none` is the YAML null
document, which is replaced by the empty mapping (`if raw is None: raw = {}`). -/
def FileConfigSource.load_config
    (fs : String → Option String)
    (extract_header : String → List (String × String))
    (rust_parse py_parse : String → Except String (Option YamlValue))
    (src : FileConfigSource) (config_path : String) :
    Except String ConfigResult :=
  let normalized := file_normalize_name config_path
  let full_path := src.path ++ "/" ++ normalized
  match fs full_path with
  | none => .error ("Config not found : " ++ full_path)
  | some content =>
    let header := extract_header content
    let parsed : Except String YamlValue :=
      match rust_parse content with
      | .ok raw => .ok (raw.getD (.ymap []))
      | .error _ =>
        match py_parse content with
        | .ok raw => .ok (raw.getD (.ymap []))
        | .error e => .error e
    match parsed with
    | .error e => .error e
    | .ok cfg =>
      .ok { config := cfg, path := "file://" ++ src.path,
            provider := src.provider, header := header }

/-- The path normalization inlined in `load_pkg_config`: add `.yaml` unless
a `.yaml`/`.yml` extension is present. -/
def pkg_path_name (config_path : String) : String :=
  if strEndsWith config_path ".yaml" || strEndsWith config_path ".yml" then
    config_path
  else config_path ++ ".yaml"

/-- `load_pkg_config`: `res` models `importlib.resources` (module path and
relative path to file text when `is_file()`, `none` otherwise — the caught
`ModuleNotFoundError` / `FileNotFoundError` / `TypeError` also land in
`none`); `py_parse` models `yaml.safe_load` with `Option.none` as the YAML
null document.  `not content.strip()` short-circuits to the empty mapping;
otherwise the `yaml.safe_load` result is returned as is. -/
def load_pkg_config
    (res : String → String → Option String)
    (py_parse : String → Except String (Option YamlValue))
    (module_path config_path : String) :
    Except String (Option YamlValue) :=
  match res module_path (pkg_path_name config_path) with
  | none => .ok none
  | some content =>
    if content.data.all Char.isWhitespace then .ok (some (.ymap []))
    else py_parse content

/-- C6 (amended): a file-source document whose text parses to YAML null loads
as the empty mapping — through the Rust parse and through the Python fallback
alike; a pkg-source document with empty or whitespace-only text loads as the
empty mapping, but for non-blank text `load_pkg_config` passes the
`yaml.safe_load` result through unchanged, so a non-blank text parsing to
YAML null yields `None` there. -/
theorem C6_null_yaml_loads_empty_map :
    (∀ fs eh rp pp (src : FileConfigSource) cp content,
      fs (src.path ++ "/" ++ file_normalize_name cp) = some content →
      rp content = Except.ok none →
      FileConfigSource.load_config fs eh rp pp src cp =
        .ok { config := .ymap [], path := "file://" ++ src.path,
              provider := src.provider, header := eh content }) ∧
    (∀ fs eh rp pp (src : FileConfigSource) cp content e,
      fs (src.path ++ "/" ++ file_normalize_name cp) = some content →
      rp content = Except.error e → pp content = Except.ok none →
      FileConfigSource.load_config fs eh rp pp src cp =
        .ok { config := .ymap [], path := "file://" ++ src.path,
              provider := src.provider, header := eh content }) ∧
    (∀ res pp mp cp content,
      res mp (pkg_path_name cp) = some content →
      content.data.all Char.isWhitespace = true →
      load_pkg_config res pp mp cp = .ok (some (.ymap []))) ∧
    (∀ res pp mp cp content,
      res mp (pkg_path_name cp) = some content →
      content.data.all Char.isWhitespace = false →
      load_pkg_config res pp mp cp = pp content) := by
  refine ⟨?_, ?_, ?_, ?_⟩
  · intro fs eh rp pp src cp content hfs hrp
    simp [FileConfigSource.load_config, hfs, hrp]
  · intro fs eh rp pp src cp content e hfs hrp hpp
    simp [FileConfigSource.load_config, hfs, hrp, hpp]
  · intro res pp mp cp content hres hblank
    simp [load_pkg_config, hres, hblank]
  · intro res pp mp cp content hres hblank
    simp [load_pkg_config, hres, hblank]

/-- A concrete filesystem for the C6 witness: one empty config file. -/
def c6FileFs : String → Option String :=
  fun p => if p = "root/config.yaml" then some "" else none

/-- A concrete YAML parse for the C6 witness and counterexample: blank text
and the literal `null` produce the YAML null document. -/
def c6Parse : String → Except String (Option YamlValue) :=
  fun s =>
    if s.data.all Char.isWhitespace ∨ s = "null" then .ok none
    else .ok (some (.prim (.pstr s)))

/-- A concrete header extraction for the C6 witness. -/
def c6Header : String → List (String × String) := fun _ => []

/-- A concrete package-resource tree for the C6 witness: one whitespace-only
config file. -/
def c6PkgRes : String → String → Option String :=
  fun m p => if m = "mod" ∧ p = "cfg.yaml" then some "  \n" else none

/-- A concrete package-resource tree for the C6 counterexample: one config
file whose text is the literal `null`. -/
def c6PkgResNull : String → String → Option String :=
  fun m p => if m = "mod" ∧ p = "cfg.yaml" then some "null" else none

/-- C6 witness: an empty file-source config loads as the empty mapping, and a
whitespace-only pkg-source config loads as the empty mapping. -/
theorem C6_null_yaml_loads_empty_map_witness :
    FileConfigSource.load_config c6FileFs c6Header c6Parse c6Parse
        ⟨"main", "root"⟩ "config" =
      .ok { config := .ymap [], path := "file://root", provider := "main",
            header := [] } ∧
    load_pkg_config c6PkgRes c6Parse "mod" "cfg" = .ok (some (.ymap [])) := by
  obtain ⟨h1, _, h3, _⟩ := C6_null_yaml_loads_empty_map
  constructor
  · exact h1 c6FileFs c6Header c6Parse c6Parse ⟨"main", "root"⟩ "config" ""
      (by rfl) (by rfl)
  · exact h3 c6PkgRes c6Parse "mod" "cfg" "  \n" (by rfl) (by rfl)

/-- C6 counterexample: a pkg-source config file whose text is the literal
`null` parses to YAML null, yet `load_pkg_config` returns `None` (the
not-found marker), not the empty mapping — the claim fails for pkg sources. -/
theorem C6_counterexample_pkg_null_text :
    c6Parse "null" = .ok none ∧
    load_pkg_config c6PkgResNull c6Parse "mod" "cfg" = .ok none ∧
    load_pkg_config c6PkgResNull c6Parse "mod" "cfg" ≠
      .ok (some (YamlValue.ymap [])) := by
  refine ⟨rfl, rfl, ?_⟩
  intro h
  exact Option.noConfusion (Except.ok.inj h)

/-! ## `ConfigStore` (`lerna/core/config_store.py`)

Python object identity is modelled with an explicit heap: the `node` of a
stored `ConfigNode` is a heap reference, and `copy.deepcopy` allocates a fresh
reference holding the same value. -/

/-- A stored `ConfigNode` record; `nodeRef` is the heap reference of its
`node` value. -/
structure ConfigNode where
  name : String
  nodeRef : Nat
  group : Option String := none
  package : Option String := none
  provider : Option String := none
deriving DecidableEq

/-- The `ConfigStore.repo` nested dict: leaves are `ConfigNode`s, inner nodes
are dicts. -/
inductive RepoVal where
  | node (cn : ConfigNode)
  | group (entries : List (String × RepoVal))

/-- The `ConfigStore` state: the nested `repo` plus the heap of node values
(the `_rust_store` mirror is not modelled). -/
structure ConfigStoreState where
  heap : List (Nat × YamlValue)
  next : Nat
  repo : List (String × RepoVal)

def heapGet (heap : List (Nat × YamlValue)) (r : Nat) : Option YamlValue :=
  heap.lookup r

/-- In-place mutation of the object behind reference `r` — what a caller does
when it mutates a returned config node. -/
def heapMutate (st : ConfigStoreState) (r : Nat) (v : YamlValue) :
    ConfigStoreState :=
  { st with heap := (r, v) :: st.heap }

/-- Python `path.split("/")`. -/
def pySplit (s : String) : List String :=
  (splitSlash s.data).map String.mk

/-- `ConfigStore._open`: walk the split path through the nested dicts,
skipping empty fragments; `none` for a missing key; `frag in d` on a stored
`ConfigNode` raises `TypeError`. -/
def csOpen : RepoVal → List String → Except String (Option RepoVal)
  | d, [] => .ok (some d)
  | d, frag :: rest =>
    if frag = "" then csOpen d rest
    else
      match d with
      | .group entries =>
        match entries.lookup frag with
        | some v => csOpen v rest
        | none => .ok none
      | .node _ =>
        .error "TypeError: argument of type ConfigNode is not iterable"

def ConfigStoreState.open_path (st : ConfigStoreState) (path : String) :
    Except String (Option RepoVal) :=
  csOpen (.group st.repo) (pySplit path)

/-- Split a path at its last `/` (Python `config_path.rfind("/")`): `none`
when there is no slash. -/
def rsplitSlashAux : List Char → Option (List Char × List Char)
  | [] => none
  | c :: cs =>
    match rsplitSlashAux cs with
    | some pr => some (c :: pr.1, pr.2)
    | none => if c = '/' then some ([], cs) else none

def rsplitSlash (s : String) : Option (String × String) :=
  (rsplitSlashAux s.data).map (fun pr => (⟨pr.1⟩, ⟨pr.2⟩))

/-- `ConfigStore._load`: locate the stored `ConfigNode` record, without
copying.  A path landing on a dict fails the `isinstance` assertion; a parent
that is missing or not a dict raises `ConfigLoadError`. -/
def ConfigStoreState.load_raw (st : ConfigStoreState) (config_path : String) :
    Except String ConfigNode :=
  match rsplitSlash config_path with
  | none =>
    match st.open_path config_path with
    | .error e => .error e
    | .ok none =>
      .error ("ConfigLoadError: Structured config not found " ++ config_path)
    | .ok (some (.node cn)) => .ok cn
    | .ok (some (.group _)) => .error "AssertionError: not a ConfigNode"
  | some pr =>
    match st.open_path pr.1 with
    | .error e => .error e
    | .ok none =>
      .error ("ConfigLoadError: Structured config not found " ++ config_path)
    | .ok (some (.node _)) =>
      .error ("ConfigLoadError: Structured config not found " ++ config_path)
    | .ok (some (.group entries)) =>
      match entries.lookup pr.2 with
      | none =>
        .error ("ConfigLoadError: Structured config " ++ pr.2 ++
          " not found in " ++ config_path)
      | some (.node cn) => .ok cn
      | some (.group _) => .error "AssertionError: not a ConfigNode"

/-- `ConfigStore.load`: find the stored record, shallow-copy it
(`copy.copy`), then deep-copy its node (`copy.deepcopy`) — modelled as
allocating a fresh heap reference holding the same value — so mutations to the
returned node cannot reach the store. -/
def ConfigStoreState.load (st : ConfigStoreState) (config_path : String) :
    Except String (ConfigNode × ConfigStoreState) :=
  match st.load_raw config_path with
  | .error e => .error e
  | .ok cn =>
    let v := (heapGet st.heap cn.nodeRef).getD (.ymap [])
    .ok ({ cn with nodeRef := st.next },
      { st with heap := (st.next, v) :: st.heap, next := st.next + 1 })

/-- `ObjectType` (`lerna/core/object_type.py`). -/
inductive ObjectType where
  | not_found
  | config
  | group
deriving DecidableEq

/-- `ConfigStore.get_type`. -/
def ConfigStoreState.get_type (st : ConfigStoreState) (path : String) :
    Except String ObjectType :=
  match st.open_path path with
  | .error e => .error e
  | .ok none => .ok .not_found
  | .ok (some (.group _)) => .ok .group
  | .ok (some (.node _)) => .ok .config

/-- `ConfigStore.list`: sorted keys of the dict at `path`; `OSError` when the
path is missing or points to a stored config. -/
def ConfigStoreState.list (st : ConfigStoreState) (path : String) :
    Except String (List String) :=
  match st.open_path path with
  | .error e => .error e
  | .ok none => .error ("OSError: Path not found " ++ path)
  | .ok (some (.node _)) =>
    .error ("OSError: Path points to a file : " ++ path)
  | .ok (some (.group entries)) => .ok (sortStrings (entries.map Prod.fst))

mutual

/-- Every node reference in the tree satisfies `P`. -/
def refOkTree (P : Nat → Bool) : RepoVal → Bool
  | .node cn => P cn.nodeRef
  | .group entries => refOkList P entries

def refOkList (P : Nat → Bool) : List (String × RepoVal) → Bool
  | [] => true
  | (_, v) :: rest => refOkTree P v && refOkList P rest

end

/-- Well-formed store: every node reference in the repo is below the
allocation counter and present in the heap. -/
def ConfigStoreState.WF (st : ConfigStoreState) : Prop :=
  refOkList (fun r => decide (r < st.next)) st.repo = true ∧
  refOkList (fun r => (heapGet st.heap r).isSome) st.repo = true

theorem refOkList_lookup {P : Nat → Bool} {entries : List (String × RepoVal)}
    {k : String} {v : RepoVal}
    (h : refOkList P entries = true) (hl : entries.lookup k = some v) :
    refOkTree P v = true := by
  induction entries with
  | nil => simp [List.lookup] at hl
  | cons e rest ih =>
    obtain ⟨k', v'⟩ := e
    rw [refOkList, Bool.and_eq_true] at h
    rw [List.lookup] at hl
    by_cases hk : k == k'
    · simp [hk] at hl
      rw [← hl]
      exact h.1
    · simp [hk] at hl
      exact ih h.2 hl

theorem refOkTree_csOpen {P : Nat → Bool} :
    ∀ (frags : List String) (d v : RepoVal),
    refOkTree P d = true → csOpen d frags = .ok (some v) →
    refOkTree P v = true := by
  intro frags
  induction frags with
  | nil =>
    intro d v hd h
    rw [csOpen] at h
    cases h
    exact hd
  | cons frag rest ih =>
    intro d v hd h
    rw [csOpen.eq_def] at h
    dsimp only at h
    by_cases hf : frag = ""
    · rw [if_pos hf] at h
      exact ih d v hd h
    · rw [if_neg hf] at h
      cases d with
      | node cn => simp at h
      | group entries =>
        dsimp only at h
        cases hl : entries.lookup frag with
        | none => rw [hl] at h; simp at h
        | some w =>
          rw [hl] at h
          rw [refOkTree] at hd
          exact ih w v (refOkList_lookup hd hl) h

theorem load_raw_refOk {P : Nat → Bool} {st : ConfigStoreState} {p : String}
    {cn : ConfigNode} (hrepo : refOkList P st.repo = true)
    (h : st.load_raw p = .ok cn) : P cn.nodeRef = true := by
  unfold ConfigStoreState.load_raw at h
  have hroot : refOkTree P (.group st.repo) = true := by
    rw [refOkTree]; exact hrepo
  cases hr : rsplitSlash p with
  | none =>
    rw [hr] at h
    cases ho : st.open_path p with
    | error e => rw [ho] at h; simp at h
    | ok od =>
      cases od with
      | none => rw [ho] at h; simp at h
      | some d =>
        cases d with
        | group _ => rw [ho] at h; simp at h
        | node cn' =>
          rw [ho] at h
          simp at h
          have := refOkTree_csOpen (pySplit p) (.group st.repo) (.node cn')
            hroot ho
          rw [refOkTree] at this
          rw [← h]
          exact this
  | some pr =>
    rw [hr] at h
    dsimp only at h
    cases ho : st.open_path pr.1 with
    | error e => rw [ho] at h; simp at h
    | ok od =>
      cases od with
      | none => rw [ho] at h; simp at h
      | some d =>
        cases d with
        | node _ => rw [ho] at h; simp at h
        | group entries =>
          rw [ho] at h
          dsimp only at h
          cases hl : entries.lookup pr.2 with
          | none => rw [hl] at h; simp at h
          | some w =>
            rw [hl] at h
            cases w with
            | group _ => simp at h
            | node cn' =>
              simp at h
              have hsub := refOkTree_csOpen (pySplit pr.1) (.group st.repo)
                (.group entries) hroot ho
              rw [refOkTree] at hsub
              have := refOkList_lookup hsub hl
              rw [refOkTree] at this
              rw [← h]
              exact this

theorem heapGet_cons_self (heap : List (Nat × YamlValue)) (n : Nat)
    (v : YamlValue) : heapGet ((n, v) :: heap) n = some v := by
  simp [heapGet, List.lookup]

theorem heapGet_cons_ne (heap : List (Nat × YamlValue)) {n r : Nat}
    (v : YamlValue) (h : r ≠ n) :
    heapGet ((n, v) :: heap) r = heapGet heap r := by
  have hb : (r == n) = false := by simp [h]
  simp [heapGet, List.lookup, hb]

theorem load_raw_repo_congr {st1 st2 : ConfigStoreState}
    (h : st1.repo = st2.repo) (p : String) :
    st1.load_raw p = st2.load_raw p := by
  unfold ConfigStoreState.load_raw ConfigStoreState.open_path
  rw [h]

/-- C9: `ConfigStore.load` isolates callers from the store: the returned
`ConfigNode` is a shallow copy whose `node` is a fresh deep copy of the stored
one — its reference differs from the stored record's reference while its value
is equal — so mutating the returned node leaves the stored entry's value
unchanged, and two successive loads of the same path return structurally equal
node values. -/
theorem C9_config_store_load_isolates (st : ConfigStoreState) (p : String)
    (cn ret : ConfigNode) (st' : ConfigStoreState)
    (hwf : st.WF) (hraw : st.load_raw p = .ok cn)
    (hload : st.load p = .ok (ret, st')) :
    ret.nodeRef ≠ cn.nodeRef ∧
    heapGet st'.heap ret.nodeRef = heapGet st.heap cn.nodeRef ∧
    (∀ v, heapGet (heapMutate st' ret.nodeRef v).heap cn.nodeRef =
      heapGet st.heap cn.nodeRef) ∧
    (∀ ret2 st'', st'.load p = .ok (ret2, st'') →
      heapGet st''.heap ret2.nodeRef = heapGet st'.heap ret.nodeRef) := by
  obtain ⟨hwf1, hwf2⟩ := hwf
  have hlt : cn.nodeRef < st.next := by
    have := load_raw_refOk hwf1 hraw
    simpa using this
  have hne : st.next ≠ cn.nodeRef := (Nat.ne_of_lt hlt).symm
  have hsome : (heapGet st.heap cn.nodeRef).isSome = true :=
    load_raw_refOk hwf2 hraw
  obtain ⟨v0, hv0⟩ := Option.isSome_iff_exists.1 hsome
  unfold ConfigStoreState.load at hload
  rw [hraw] at hload
  dsimp only at hload
  rw [hv0] at hload
  simp only [Option.getD_some] at hload
  have hpair := Except.ok.inj hload
  have hret : ret = { cn with nodeRef := st.next } :=
    ((Prod.ext_iff.1 hpair).1).symm
  have hst' : st' =
      { st with heap := (st.next, v0) :: st.heap, next := st.next + 1 } :=
    ((Prod.ext_iff.1 hpair).2).symm
  subst hret
  subst hst'
  refine ⟨hne, ?_, ?_, ?_⟩
  · rw [hv0]
    exact heapGet_cons_self st.heap st.next v0
  · intro v
    unfold heapMutate
    dsimp only
    rw [heapGet_cons_ne _ _ (Ne.symm hne), heapGet_cons_ne _ _ (Ne.symm hne)]
  · intro ret2 st'' h2
    have hraw2 : ConfigStoreState.load_raw
        { st with heap := (st.next, v0) :: st.heap, next := st.next + 1 } p =
        .ok cn := (load_raw_repo_congr rfl p).trans hraw
    unfold ConfigStoreState.load at h2
    rw [hraw2] at h2
    dsimp only at h2
    rw [heapGet_cons_ne _ _ (Ne.symm hne), hv0] at h2
    simp only [Option.getD_some] at h2
    have hpair2 := Except.ok.inj h2
    have hret2 : ret2 = { cn with nodeRef := st.next + 1 } :=
      ((Prod.ext_iff.1 hpair2).1).symm
    have hst'' : st'' = { st with
        heap := (st.next + 1, v0) :: (st.next, v0) :: st.heap,
        next := st.next + 1 + 1 } := ((Prod.ext_iff.1 hpair2).2).symm
    subst hret2
    subst hst''
    rw [heapGet_cons_self, heapGet_cons_self]

/-- The stored record of the C9 witness. -/
def cnW : ConfigNode := ⟨"mysql.yaml", 0, some "db", none, some "test"⟩

/-- The store state of the C9 witness: one config stored under `db/mysql`. -/
def stW : ConfigStoreState :=
  ⟨[(0, .ymap [])], 1, [("db", .group [("mysql.yaml", .node cnW)])]⟩

/-- The record returned by `load` in the C9 witness. -/
def retW : ConfigNode := { cnW with nodeRef := 1 }

/-- The store state after `load` in the C9 witness. -/
def stW' : ConfigStoreState :=
  { stW with heap := (1, .ymap []) :: stW.heap, next := 2 }

/-- C9 witness: loading `db/mysql.yaml` returns a fresh reference whose value
equals the stored one, and mutating it leaves the stored entry unchanged. -/
theorem C9_config_store_load_isolates_witness :
    retW.nodeRef ≠ cnW.nodeRef ∧
    heapGet stW'.heap retW.nodeRef = heapGet stW.heap cnW.nodeRef ∧
    heapGet (heapMutate stW' retW.nodeRef (.prim (.pint 9))).heap cnW.nodeRef =
      heapGet stW.heap cnW.nodeRef := by
  obtain ⟨h1, h2, h3, _⟩ := C9_config_store_load_isolates stW "db/mysql.yaml"
    cnW retW stW' ⟨rfl, rfl⟩ rfl rfl
  exact ⟨h1, h2, h3 (.prim (.pint 9))⟩

/-! ## structured:// helper callbacks (`structured_helper.py`) -/

/-- The `.yaml`-suffix normalization shared by the structured helpers. -/
def structured_yaml_path (config_path : String) : String :=
  if strEndsWith config_path ".yaml" then config_path
  else config_path ++ ".yaml"

/-- `load_structured_config`: add the `.yaml` suffix, load through
`ConfigStore.load` and return the plain value (`OmegaConf.to_container`);
any exception yields `None`. -/
def load_structured_config (st : ConfigStoreState) (config_path : String) :
    Option YamlValue :=
  match st.load (structured_yaml_path config_path) with
  | .ok r => some ((heapGet r.2.heap r.1.nodeRef).getD (.ymap []))
  | .error _ => none

/-- `structured_config_exists`: add the `.yaml` suffix and compare
`get_type` with `CONFIG`; any exception yields `False`. -/
def structured_config_exists (st : ConfigStoreState) (config_path : String) :
    Bool :=
  match st.get_type (structured_yaml_path config_path) with
  | .ok t => t == .config
  | .error _ => false

/-- `structured_group_exists`: the root exists when the repo is nonempty;
otherwise compare `get_type` with `GROUP`; any exception yields `False`. -/
def structured_group_exists (st : ConfigStoreState) (group_path : String) :
    Bool :=
  if group_path = "" then !st.repo.isEmpty
  else
    match st.get_type group_path with
    | .ok t => t == .group
    | .error _ => false

/-- `structured_list_options`: `ConfigStore.list`; any exception yields the
empty list. -/
def structured_list_options (st : ConfigStoreState) (group_path : String) :
    List String :=
  match st.list group_path with
  | .ok l => l
  | .error _ => []

/-- C10: the structured:// repository callbacks are total at the public
boundary: `load_structured_config` always returns an optional value and maps
any internal failure to `None`; `structured_config_exists` and
`structured_group_exists` always return a `Bool` and map any internal failure
to `False`; `structured_list_options` always returns a list and maps any
internal failure to the empty list. -/
theorem C10_structured_callbacks_total (st : ConfigStoreState) (p : String) :
    (∀ e, st.load (structured_yaml_path p) = .error e →
      load_structured_config st p = none) ∧
    (∀ e, st.get_type (structured_yaml_path p) = .error e →
      structured_config_exists st p = false) ∧
    (∀ e, p ≠ "" → st.get_type p = .error e →
      structured_group_exists st p = false) ∧
    (∀ e, st.list p = .error e → structured_list_options st p = []) := by
  refine ⟨?_, ?_, ?_, ?_⟩
  · intro e h
    simp [load_structured_config, h]
  · intro e h
    simp [structured_config_exists, h]
  · intro e hp h
    simp [structured_group_exists, hp, h]
  · intro e h
    simp [structured_list_options, h]

/-- C10 witness: on a concrete store holding one config, a missing path makes
`load_structured_config` return `None` and `structured_list_options` return
`[]`, and a path stepping through a stored config (an internal `TypeError`)
makes both existence probes return `False`. -/
theorem C10_structured_callbacks_total_witness :
    load_structured_config stW "nope" = none ∧
    structured_config_exists stW "db/mysql.yaml/x" = false ∧
    structured_group_exists stW "db/mysql.yaml/x" = false ∧
    structured_list_options stW "nope" = [] := by
  refine ⟨?_, ?_, ?_, ?_⟩
  · exact (C10_structured_callbacks_total stW "nope").1
      "ConfigLoadError: Structured config not found nope.yaml" rfl
  · exact (C10_structured_callbacks_total stW "db/mysql.yaml/x").2.1
      "TypeError: argument of type ConfigNode is not iterable" rfl
  · exact (C10_structured_callbacks_total stW "db/mysql.yaml/x").2.2.1
      "TypeError: argument of type ConfigNode is not iterable"
      (by decide) rfl
  · exact (C10_structured_callbacks_total stW "nope").2.2.2
      "OSError: Path not found nope" rfl

/-! ## `_patch_` directives of the defaults list -/

/-- Modelled from the spec: a `_patch_[@pkg]` defaults-list entry — an
optional explicit package scope (`some ""` is the ill-formed `_patch_@`) and
its parsed override strings.  The `_patch_` processing lives in the Rust
defaults-list resolver, not under the Python sources here. -/
structure PatchEntry where
  package : Option String
  overrides : List Override

/-- An override whose value is a sweep (any of the sweep value types). -/
def Override.is_sweep (o : Override) : Bool :=
  match o.value_type with
  | some .choice_sweep | some .simple_choice_sweep | some .glob_choice_sweep
  | some .range_sweep | some .interval_sweep => true
  | _ => false

/-- Errors of `_patch_` processing, as pinned by the tests: a sweep override
raises `ConfigCompositionException`, an empty `@` package raises
`ValueError`. -/
inductive PatchError where
  | composition (msg : String)
  | value_error (msg : String)
deriving DecidableEq

/-- Modelled from the spec: validation and collection of one `_patch_` entry
during composition — an empty explicit package is refused, a sweep override is
refused with a composition error, and otherwise every override string is kept
for post-merge application. -/
def process_patch (entry : PatchEntry) : Except PatchError (List Override) :=
  if entry.package = some "" then
    .error (.value_error "_patch_@ requires a package name")
  else if entry.overrides.any Override.is_sweep then
    .error (.composition "_patch_ does not support sweep overrides")
  else .ok entry.overrides

/-- C5: `_patch_` entries contain only value overrides: a `_patch_` whose
override list contains a sweep fails composition with a composition error; a
`_patch_@` entry with an empty package name fails; and on success the patch
contributes exactly its override list — nothing is silently dropped and no
sweep is ever applied. -/
theorem C5_patch_rejects_sweeps_and_empty_package (entry : PatchEntry) :
    ((∃ o ∈ entry.overrides, o.is_sweep = true) → entry.package ≠ some "" →
      process_patch entry =
        .error (.composition "_patch_ does not support sweep overrides")) ∧
    (entry.package = some "" →
      process_patch entry =
        .error (.value_error "_patch_@ requires a package name")) ∧
    (∀ res, process_patch entry = .ok res →
      res = entry.overrides ∧ ∀ o ∈ res, o.is_sweep = false) := by
  refine ⟨?_, ?_, ?_⟩
  · intro hsw hpkg
    rw [process_patch, if_neg hpkg, if_pos (List.any_eq_true.2 ?_)]
    obtain ⟨o, ho, hs⟩ := hsw
    exact ⟨o, ho, hs⟩
  · intro hpkg
    rw [process_patch, if_pos hpkg]
  · intro res h
    rw [process_patch] at h
    by_cases hpkg : entry.package = some ""
    · rw [if_pos hpkg] at h
      simp at h
    · rw [if_neg hpkg] at h
      by_cases hsw : entry.overrides.any Override.is_sweep
      · rw [if_pos hsw] at h
        simp at h
      · rw [if_neg hsw] at h
        have hres : res = entry.overrides := (Except.ok.inj h).symm
        subst hres
        refine ⟨rfl, ?_⟩
        intro o ho
        cases hval : o.is_sweep with
        | false => rfl
        | true => exact absurd (List.any_eq_true.2 ⟨o, ho, hval⟩) hsw

/-- The sweep override of the C5 witness (`key=choice(1,2,3)`). -/
def c5SweepOverride : Override :=
  { type := .change, key_or_group := "key", value_type := some .choice_sweep,
    value := .choice [] [.prim (.pint 1), .prim (.pint 2), .prim (.pint 3)]
      false false, input_line := some "key=choice(1,2,3)" }

/-- The delete override of the C5 witness (`~key`). -/
def c5DelOverride : Override :=
  { type := .del, key_or_group := "key", value_type := none,
    value := .none_v, input_line := some "~key" }

/-- C5 witness: a `_patch_` containing `key=choice(1,2,3)` is rejected with
the composition error, and `_patch_@` with an empty package is rejected. -/
theorem C5_patch_rejects_sweeps_and_empty_package_witness :
    process_patch ⟨none, [c5SweepOverride]⟩ =
      .error (.composition "_patch_ does not support sweep overrides") ∧
    process_patch ⟨some "", [c5DelOverride]⟩ =
      .error (.value_error "_patch_@ requires a package name") := by
  obtain ⟨h1, -, -⟩ :=
    C5_patch_rejects_sweeps_and_empty_package ⟨none, [c5SweepOverride]⟩
  obtain ⟨-, h2, -⟩ :=
    C5_patch_rejects_sweeps_and_empty_package ⟨some "", [c5DelOverride]⟩
  refine ⟨h1 ?_ (by simp), h2 rfl⟩
  exact Exists.intro c5SweepOverride (And.intro (by simp) rfl)

end Lerna
